import Mathlib

/-!
# Verification of the ImFileBrowser directory-navigation core

A shallow embedding of the ImFileBrowser library's listing engine
(`FileSystemHelper`), filter parsing (`FileFilter`), browser session state
(`FileBrowserDialog`), layout sizing (`UpdateSizing`) and confirmation
dialog (`ConfirmationDialog`), with theorems checking the specified
behaviour of each component.

Modelling conventions:
* C++ `std::string` is modelled by `String`; per-character ASCII
  `tolower` is modelled explicitly.
* C++ `std::sort(first, last, cmp)` is modelled by a stable insertion
  sort driven by the same strict comparator (`a` is placed before `b`
  exactly when `cmp b a` is `false`); for a strict-weak-order comparator
  this realises one of the orderings `std::sort` is allowed to produce.
* The filesystem collaborator (`std::filesystem`) is modelled by an
  abstract `FileSystem` record supplying the directory test and the raw
  child enumeration; enumeration errors are folded into an empty result,
  matching the `try/catch` in `ListDirectory`.
* ImGui interaction is modelled by explicit per-frame input records;
  the `Render` functions become state transformers.
-/

namespace ImFileBrowser

/-- Dialog mode (`Types.hpp`, `enum class Mode`). -/
inductive Mode where
  | Open
  | Save
  | SelectFolder
deriving DecidableEq

/-- Sort order for listings (`Types.hpp`, `enum class SortOrder`). -/
inductive SortOrder where
  | NameAsc
  | NameDesc
  | SizeAsc
  | SizeDesc
  | DateAsc
  | DateDesc
deriving DecidableEq

/-- Result of the confirmation dialog (`Types.hpp`, `enum class DialogResult`). -/
inductive DialogResult where
  | None
  | Ok
  | Cancel
  | Yes
  | No
  | Save
  | DontSave
  | Retry
deriving DecidableEq

/-- One directory child (`FileSystemHelper.hpp`, `struct FileEntry`). -/
structure FileEntry where
  name : String
  path : String
  isDirectory : Bool
  size : Nat
  modifiedTime : Int
deriving DecidableEq

/-- ASCII `tolower` as applied by `std::transform(..., ::tolower)` in the
C locale: uppercase letters map to lowercase, all else unchanged. -/
def toLowerChar (c : Char) : Char :=
  if 'A' ≤ c ∧ c ≤ 'Z' then Char.ofNat (c.toNat + 32) else c

/-- Lowercase a whole string, character by character. -/
def toLowerString (s : String) : String :=
  String.mk (s.data.map toLowerChar)

/-- Index of the first occurrence of the two-character pattern `*.`
(`std::string::find("*.")`). -/
def findStarDot : List Char → Option Nat
  | [] => none
  | c :: rest =>
    if c = '*' ∧ rest.head? = some '.' then some 0
    else (findStarDot rest).map Nat.succ

/-- Index of the first `;` or `,` (`std::string::find_first_of(";,")`). -/
def findSemiComma : List Char → Option Nat
  | [] => none
  | c :: rest =>
    if c = ';' ∨ c = ',' then some 0
    else (findSemiComma rest).map Nat.succ

/-- The `while` loop of `FileFilter::GetExtensionList`, with explicit fuel.
Each iteration strictly shortens the working string, so fuel equal to the
initial length plus one is enough to run the loop to completion. -/
def getExtensionListAux : Nat → List Char → List String
  | 0, _ => []
  | fuel + 1, exts =>
    match findStarDot exts with
    | none => []
    | some pos =>
      let rest := exts.drop (pos + 2)
      match findSemiComma rest with
      | none => [String.mk (('.' :: rest).map toLowerChar)]
      | some endPos =>
        String.mk (('.' :: rest.take endPos).map toLowerChar)
          :: getExtensionListAux fuel (rest.drop (endPos + 1))

/-- A (description, extension-pattern) filter (`FileFilter.hpp`). -/
structure FileFilter where
  description : String
  extensions : String
deriving DecidableEq

/-- `FileFilter::GetExtensionList`: parse `extensions` (for example
`"*.jml;*.jmd"`) into a list of lowercase dotted extensions. -/
def FileFilter.GetExtensionList (f : FileFilter) : List String :=
  getExtensionListAux (f.extensions.length + 1) f.extensions.data

example : (FileFilter.mk "JML" "*.jml;*.jmd").GetExtensionList = [".jml", ".jmd"] := by decide
example : (FileFilter.mk "All" "*.*").GetExtensionList = [".*"] := by decide

/-! ## The listing engine (`FileSystemHelper`) -/

/-- Insert `a` into `l` before the first element `b` with `le a b`. -/
def orderedInsertB (le : α → α → Bool) (a : α) : List α → List α
  | [] => [a]
  | b :: l => if le a b then a :: b :: l else b :: orderedInsertB le a l

/-- Stable insertion sort by a boolean "may come before" relation. -/
def insertionSortB (le : α → α → Bool) : List α → List α
  | [] => []
  | a :: l => orderedInsertB le a (insertionSortB le l)

/-- Model of `std::sort(v.begin(), v.end(), cmp)` for a strict comparator
`cmp`: a stable sort that places `a` before `b` exactly when `cmp b a` is
`false` (that is, when `b` does not have to come before `a`). -/
def stdSort (cmp : α → α → Bool) (l : List α) : List α :=
  insertionSortB (fun a b => !(cmp b a)) l

/-- The `compareName` lambda of `FileSystemHelper::SortEntries`:
directories first, then case-insensitive name order. -/
def compareName (a b : FileEntry) : Bool :=
  if a.isDirectory ≠ b.isDirectory then a.isDirectory && !b.isDirectory
  else decide (toLowerString a.name < toLowerString b.name)

/-- The `compareSize` lambda of `SortEntries`. -/
def compareSize (a b : FileEntry) : Bool :=
  if a.isDirectory ≠ b.isDirectory then a.isDirectory && !b.isDirectory
  else decide (a.size < b.size)

/-- The `compareDate` lambda of `SortEntries`. -/
def compareDate (a b : FileEntry) : Bool :=
  if a.isDirectory ≠ b.isDirectory then a.isDirectory && !b.isDirectory
  else decide (a.modifiedTime < b.modifiedTime)

/-- The comparator passed to `std::sort` in the `NameDesc` branch of
`SortEntries`, written there as
`!compareName(a, b) && (a.isDirectory == b.isDirectory || compareName(a, b))`. -/
def compareNameDesc (a b : FileEntry) : Bool :=
  !compareName a b && (a.isDirectory == b.isDirectory || compareName a b)

/-- The comparator of the `SizeDesc` branch of `SortEntries`. -/
def compareSizeDesc (a b : FileEntry) : Bool :=
  if a.isDirectory ≠ b.isDirectory then a.isDirectory && !b.isDirectory
  else decide (b.size < a.size)

/-- The comparator of the `DateDesc` branch of `SortEntries`. -/
def compareDateDesc (a b : FileEntry) : Bool :=
  if a.isDirectory ≠ b.isDirectory then a.isDirectory && !b.isDirectory
  else decide (b.modifiedTime < a.modifiedTime)

/-- `FileSystemHelper::SortEntries`: dispatch on the sort order. -/
def SortEntries (entries : List FileEntry) (order : SortOrder) : List FileEntry :=
  match order with
  | .NameAsc => stdSort compareName entries
  | .NameDesc => stdSort compareNameDesc entries
  | .SizeAsc => stdSort compareSize entries
  | .SizeDesc => stdSort compareSizeDesc entries
  | .DateAsc => stdSort compareDate entries
  | .DateDesc => stdSort compareDateDesc entries

/-- The filesystem collaborator: the directory test and the raw child
enumeration used by `ListDirectory` (`std::filesystem`).  Enumeration
failures are folded into an empty child list, matching the `try/catch`. -/
structure FileSystem where
  isDirectory : String → Bool
  listChildren : String → List FileEntry

/-- `FileSystemHelper::ListDirectory`: enumerate the children of `path`
and sort them.  Per-child stat errors are already folded into the entry
data supplied by the collaborator (size and timestamp default to 0). -/
def ListDirectory (fs : FileSystem) (path : String) (order : SortOrder) : List FileEntry :=
  SortEntries (fs.listChildren path) order

/-- The characters of a POSIX path after the last `/`
(`std::filesystem::path::filename`). -/
def afterLastSlash (l : List Char) : List Char :=
  l.foldl (fun acc c => if c = '/' then [] else acc ++ [c]) []

/-- Index of the last occurrence of `ch` (`std::string::rfind`). -/
def lastIdxOf (ch : Char) : List Char → Option Nat
  | [] => none
  | c :: rest =>
    match lastIdxOf ch rest with
    | some i => some (i + 1)
    | none => if c = ch then some 0 else none

/-- `std::filesystem::path::extension` on a filename: the suffix starting
at the last dot, unless the filename is `.` or `..` or its only relevant
dot is the leading character. -/
def pathExtensionCore (fname : List Char) : List Char :=
  if fname = ['.'] ∨ fname = ['.', '.'] then []
  else
    match lastIdxOf '.' fname with
    | none => []
    | some 0 => []
    | some i => fname.drop i

/-- `FileSystemHelper::GetExtension`: lowercase extension with dot. -/
def GetExtension (path : String) : String :=
  String.mk ((pathExtensionCore (afterLastSlash path.data)).map toLowerChar)

/-- `FileSystemHelper::CompareExtension`: case-insensitive equality. -/
def CompareExtension (ext1 ext2 : String) : Bool :=
  toLowerString ext1 == toLowerString ext2

/-- `FileSystemHelper::ListDirectoryFiltered`: keep directories always and
files whose extension matches one of `extensions`; with an empty filter
list the plain listing is returned. -/
def ListDirectoryFiltered (fs : FileSystem) (path : String)
    (extensions : List String) (order : SortOrder) : List FileEntry :=
  let entries := ListDirectory fs path order
  if extensions = [] then entries
  else entries.filter (fun e =>
    e.isDirectory || extensions.any (fun ae => CompareExtension (GetExtension e.name) ae))

/-- `FileSystemHelper::CombinePath` on POSIX:
`(fs::path(base) / fs::path(child)).string()`. -/
def CombinePath (base child : String) : String :=
  if child.data.head? = some '/' then child
  else if base = "" then child
  else if base.data.getLast? = some '/' then base ++ child
  else base ++ "/" ++ child

example : GetExtension "report" = "" := by decide
example : GetExtension "report.TXT" = ".txt" := by decide
example : GetExtension ".hidden" = "" := by decide
example : CombinePath "/tmp" "report.txt" = "/tmp/report.txt" := by decide

/-! ## Browser session state (`FileBrowserDialog`) -/

/-- The configuration fields of `DialogConfig` that the navigation and
selection logic reads. -/
structure DialogConfig where
  mode : Mode
  filters : List FileFilter
  showHiddenFiles : Bool
deriving DecidableEq

/-- The session state of `FileBrowserDialog` touched by navigation,
selection and listing refresh. -/
structure BrowserState where
  config : DialogConfig
  currentPath : String
  entries : List FileEntry
  selectedIndex : Int
  filenameBuffer : String
  sortOrder : SortOrder
  selectedFilterIndex : Int
  pendingScrollToIndex : Int
deriving DecidableEq

/-- A default-constructed `FileEntry`, used only as the irrelevant
placeholder of guarded vector indexing. -/
def defaultEntry : FileEntry := ⟨"", "", false, 0, 0⟩

/-- `FileBrowserDialog::GetCurrentExtensions`: the extension list of the
active filter, or `[]` when there is no usable filter. -/
def GetCurrentExtensions (filters : List FileFilter) (idx : Int) : List String :=
  if filters = [] ∨ idx < 0 ∨ (filters.length : Int) ≤ idx then []
  else (filters.getD idx.toNat (FileFilter.mk "" "")).GetExtensionList

/-- The hidden-file test of `RefreshDirectory`:
`!e.name.empty() && e.name[0] == '.'`. -/
def isHiddenEntry (e : FileEntry) : Bool :=
  match e.name.data with
  | [] => false
  | c :: _ => c == '.'

/-- `FileBrowserDialog::RefreshDirectory`: rebuild the entry list from the
current path, filter and sort settings, drop hidden entries unless
requested, and reset the selection. -/
def RefreshDirectory (fs : FileSystem) (st : BrowserState) : BrowserState :=
  let extensions := GetCurrentExtensions st.config.filters st.selectedFilterIndex
  let entries :=
    if st.config.mode = Mode.SelectFolder ∨ extensions = [] then
      ListDirectory fs st.currentPath st.sortOrder
    else
      ListDirectoryFiltered fs st.currentPath extensions st.sortOrder
  let entries :=
    if !st.config.showHiddenFiles then entries.filter (fun e => !isHiddenEntry e)
    else entries
  { st with entries := entries, selectedIndex := -1 }

/-- `FileBrowserDialog::NavigateTo`: only an existing directory is entered;
anything else leaves the state untouched. -/
def NavigateTo (fs : FileSystem) (st : BrowserState) (path : String) : BrowserState :=
  if fs.isDirectory path then
    RefreshDirectory fs { st with currentPath := path, selectedIndex := -1 }
  else st

/-- `FileBrowserDialog::SelectEntry`: out-of-range indices clear the
selection; an in-range file entry additionally mirrors its name into the
filename buffer except in `SelectFolder` mode. -/
def SelectEntry (st : BrowserState) (index : Int) : BrowserState :=
  if index < 0 ∨ (st.entries.length : Int) ≤ index then
    { st with selectedIndex := -1 }
  else
    let entry := st.entries.getD index.toNat defaultEntry
    let st := { st with selectedIndex := index }
    if !entry.isDirectory ∧ st.config.mode ≠ Mode.SelectFolder then
      { st with filenameBuffer := entry.name }
    else st

/-- `FileBrowserDialog::IsValidSelection`. -/
def IsValidSelection (st : BrowserState) : Bool :=
  match st.config.mode with
  | Mode.Open =>
    decide (0 ≤ st.selectedIndex) && decide (st.selectedIndex < (st.entries.length : Int)) &&
      !(st.entries.getD st.selectedIndex.toNat defaultEntry).isDirectory
  | Mode.Save => decide (st.filenameBuffer ≠ "")
  | Mode.SelectFolder => true

/-- `FileBrowserDialog::BuildFullPath`. -/
def BuildFullPath (st : BrowserState) : String :=
  match st.config.mode with
  | Mode.Open =>
    if 0 ≤ st.selectedIndex ∧ st.selectedIndex < (st.entries.length : Int) then
      (st.entries.getD st.selectedIndex.toNat defaultEntry).path
    else ""
  | Mode.Save =>
    let filename := st.filenameBuffer
    let filename :=
      if st.config.filters ≠ [] then
        let extensions := GetCurrentExtensions st.config.filters st.selectedFilterIndex
        if extensions ≠ [] then
          let currentExt := GetExtension filename
          if extensions.contains currentExt then filename
          else filename ++ extensions.headD ""
        else filename
      else filename
    CombinePath st.currentPath filename
  | Mode.SelectFolder => st.currentPath

/-- The character loop of `FileBrowserDialog::FindMatchingEntryIndex`:
does `name` start, case-insensitively, with `pat`?  The source first
checks `entry.name.length() >= prefixLen` and then compares the first
`prefixLen` characters after `tolower`; running out of name characters is
exactly the failing length check. -/
def ciStartsWith (pat name : List Char) : Bool :=
  match pat, name with
  | [], _ => true
  | _ :: _, [] => false
  | p :: ps, n :: ns => toLowerChar n == toLowerChar p && ciStartsWith ps ns

/-- The indexed search loop of `FindMatchingEntryIndex`. -/
def findMatchAux (pat : List Char) : List FileEntry → Nat → Int
  | [], _ => -1
  | e :: rest, i =>
    if ciStartsWith pat e.name.data then (i : Int)
    else findMatchAux pat rest (i + 1)

/-- `FileBrowserDialog::FindMatchingEntryIndex`: index of the first entry
whose name starts (case-insensitively) with `pat`, `-1` if none or if the
pattern is empty. -/
def FindMatchingEntryIndex (entries : List FileEntry) (pat : String) : Int :=
  if pat = "" then -1
  else findMatchAux pat.data entries 0

/-- The incremental-search reaction to a filename-buffer edit
(`RenderFilenameAndFilter`, the `InputText` change handler): in `Open`
mode with a non-empty buffer, a successful search moves the selection and
requests a scroll-into-view; otherwise nothing changes. -/
def OnFilenameEdited (st : BrowserState) : BrowserState :=
  if st.config.mode = Mode.Open ∧ st.filenameBuffer ≠ "" then
    let matchIndex := FindMatchingEntryIndex st.entries st.filenameBuffer
    if 0 ≤ matchIndex then
      { st with selectedIndex := matchIndex, pendingScrollToIndex := matchIndex }
    else st
  else st

/-! ## Scale-responsive sizing (`FileBrowserDialog::UpdateSizing`)

The numeric base constants live in `Config.hpp` and in the external
`ImGuiScaling` header; `UpdateSizing` only ever multiplies them by the
current scale, so the model is parameterised by the two base tables. -/

/-- The desktop 1.0x-scale constants read by `UpdateSizing`
(`BaseSize::ROW_HEIGHT` and friends, including the dialog size). -/
structure DesktopBase where
  rowHeight : ℚ
  buttonHeight : ℚ
  buttonWidth : ℚ
  iconSize : ℚ
  fontSize : ℚ
  pathBarHeight : ℚ
  inputHeight : ℚ
  dialogWidth : ℚ
  dialogHeight : ℚ
deriving DecidableEq

/-- The touch 1.0x-scale constants read by `UpdateSizing`
(`BaseSize::TOUCH_ROW_HEIGHT` and friends; no dialog size, the touch
dialog is viewport-relative). -/
structure TouchBase where
  rowHeight : ℚ
  buttonHeight : ℚ
  buttonWidth : ℚ
  iconSize : ℚ
  fontSize : ℚ
  pathBarHeight : ℚ
  inputHeight : ℚ
deriving DecidableEq

/-- The sizing fields of `FileBrowserDialog` recomputed by `UpdateSizing`. -/
structure LayoutMetrics where
  rowHeight : ℚ
  buttonHeight : ℚ
  buttonWidth : ℚ
  iconSize : ℚ
  fontSize : ℚ
  pathBarHeight : ℚ
  inputHeight : ℚ
  dialogWidth : ℚ
  dialogHeight : ℚ
deriving DecidableEq

/-- `FileBrowserDialog::UpdateSizing`: every per-widget metric is the
matching base constant times the scale; the touch-mode dialog instead
takes 90% / 85% of the host viewport's display size. -/
def UpdateSizing (desktop : DesktopBase) (touch : TouchBase) (touchMode : Bool)
    (scale displayX displayY : ℚ) : LayoutMetrics :=
  if touchMode then
    { rowHeight := touch.rowHeight * scale
      buttonHeight := touch.buttonHeight * scale
      buttonWidth := touch.buttonWidth * scale
      iconSize := touch.iconSize * scale
      fontSize := touch.fontSize * scale
      pathBarHeight := touch.pathBarHeight * scale
      inputHeight := touch.inputHeight * scale
      dialogWidth := displayX * (9 / 10)
      dialogHeight := displayY * (17 / 20) }
  else
    { rowHeight := desktop.rowHeight * scale
      buttonHeight := desktop.buttonHeight * scale
      buttonWidth := desktop.buttonWidth * scale
      iconSize := desktop.iconSize * scale
      fontSize := desktop.fontSize * scale
      pathBarHeight := desktop.pathBarHeight * scale
      inputHeight := desktop.inputHeight * scale
      dialogWidth := desktop.dialogWidth * scale
      dialogHeight := desktop.dialogHeight * scale }

/-! ## Confirmation dialog (`ConfirmationDialog`)

`DialogButton` is a bitset enum; it is modelled by its underlying
integer value (`Ok = 1`, `Cancel = 2`, `Yes = 4`, `No = 8`, `Save = 16`,
`DontSave = 32`, `Retry = 64`, `None = 0`). -/

/-- `HasButton` from `Types.hpp`: bitwise-and test. -/
def HasButton (buttons test : Nat) : Bool :=
  buttons.land test ≠ 0

/-- The confirmation configuration fields driving the result logic. -/
structure ConfirmationConfig where
  buttons : Nat
  defaultButton : Nat
deriving DecidableEq

/-- The `ConfirmationDialog` state touched by `Show`, `Hide` and `Render`. -/
structure ConfState where
  config : ConfirmationConfig
  isShown : Bool
  shouldOpen : Bool
  result : DialogResult
deriving DecidableEq

/-- The per-frame ImGui interaction consumed by `ConfirmationDialog::Render`:
which buttons report a click, the two key queries, and whether
`BeginPopupModal` kept the popup open. -/
structure ConfFrameInput where
  clicked : Nat → Bool
  escapePressed : Bool
  enterPressed : Bool
  popupOpen : Bool

/-- The `switch` of `ConfirmationDialog::HandleButtonClick`: result value
of a button; every value that is not one of the seven buttons (including
`None` and bitset combinations) falls to the `default:` case. -/
def buttonResult (b : Nat) : DialogResult :=
  if b = 1 then DialogResult.Ok
  else if b = 2 then DialogResult.Cancel
  else if b = 4 then DialogResult.Yes
  else if b = 8 then DialogResult.No
  else if b = 16 then DialogResult.Save
  else if b = 32 then DialogResult.DontSave
  else if b = 64 then DialogResult.Retry
  else DialogResult.None

/-- `ConfirmationDialog::HandleButtonClick`: store the result and, when it
is a real outcome, hide the dialog. -/
def HandleButtonClick (st : ConfState) (b : Nat) : ConfState :=
  let st := { st with result := buttonResult b }
  if st.result ≠ DialogResult.None then { st with isShown := false } else st

/-- `ConfirmationDialog::Show`: reset to a fresh shown cycle. -/
def ConfShow (cfg : ConfirmationConfig) (st : ConfState) : ConfState :=
  { st with config := cfg, isShown := true, shouldOpen := true,
            result := DialogResult.None }

/-- The fixed rendering order of `RenderButtons`:
Save, Ok, Yes, Retry, No, DontSave, Cancel. -/
def buttonRenderOrder : List Nat := [16, 1, 4, 64, 8, 32, 2]

/-- The click pass of `RenderButtons`: each enabled button that reports a
click this frame fires `HandleButtonClick`, in rendering order. -/
def processClicks (inp : ConfFrameInput) (st : ConfState) : ConfState :=
  buttonRenderOrder.foldl
    (fun s b => if HasButton s.config.buttons b && inp.clicked b then HandleButtonClick s b else s)
    st

/-- The Escape handler of `Render`: Cancel when enabled, else No when
enabled, else nothing. -/
def processEscape (inp : ConfFrameInput) (st : ConfState) : ConfState :=
  if inp.escapePressed then
    if HasButton st.config.buttons 2 then HandleButtonClick st 2
    else if HasButton st.config.buttons 8 then HandleButtonClick st 8
    else st
  else st

/-- The Enter handler of `Render`: always fires the configured default
button, with no membership test against the enabled bitset. -/
def processEnter (inp : ConfFrameInput) (st : ConfState) : ConfState :=
  if inp.enterPressed then HandleButtonClick st st.config.defaultButton else st

/-- `ConfirmationDialog::Render` as a state transformer returning the new
state and the `DialogResult` handed back to the caller this frame. -/
def ConfRender (st : ConfState) (inp : ConfFrameInput) : ConfState × DialogResult :=
  if !st.isShown then (st, DialogResult.None)
  else
    let st := { st with shouldOpen := false }
    if inp.popupOpen then
      let st := processEnter inp (processEscape inp (processClicks inp st))
      (st, st.result)
    else
      ({ st with isShown := false }, st.result)

/-- Iterated rendering: the results of a sequence of frames. -/
def ConfRenderSeq : ConfState → List ConfFrameInput → List DialogResult
  | _, [] => []
  | st, inp :: rest =>
    let out := ConfRender st inp
    out.2 :: ConfRenderSeq out.1 rest

/-! ## Theorems -/

/-- A plain file named `a`, listed before the directory below. -/
def plainFileA : FileEntry := ⟨"a", "/data/a", false, 10, 5⟩

/-- A directory named `b`. -/
def plainDirB : FileEntry := ⟨"b", "/data/b", true, 0, 3⟩

/-- C1: the claim says every directory appears before every file for all
six sort orders, but under `SortOrder.NameDesc` the comparator of
`SortEntries` compares every directory/file pair as unordered (it returns
`false` in both directions), so the sort may leave a file ahead of a
directory; on the listing `[file "a", directory "b"]` the sorted result
keeps the file first. -/
theorem sortEntries_nameDesc_file_before_directory :
    SortEntries [plainFileA, plainDirB] SortOrder.NameDesc = [plainFileA, plainDirB]
    ∧ plainFileA.isDirectory = false
    ∧ plainDirB.isDirectory = true
    ∧ compareNameDesc plainFileA plainDirB = false
    ∧ compareNameDesc plainDirB plainFileA = false := by
  decide

/-- C2 counterexample: `GetExtensionList` applied to the wildcard-all
pattern `"*.*"` returns the one-element list `[".*"]`, not the empty
list claimed by the specification. -/
theorem getExtensionList_wildcardAll_counterexample :
    (FileFilter.mk "All Files" "*.*").GetExtensionList ≠ [] := by
  decide

/-- C2 (amended): `GetExtensionList` parses `"*.jml;*.jmd"` into exactly
`[".jml", ".jmd"]`, and parses the wildcard-all pattern `"*.*"` into the
literal one-element list `[".*"]` rather than the empty list. -/
theorem getExtensionList_parses_patterns :
    (FileFilter.mk "JML" "*.jml;*.jmd").GetExtensionList = [".jml", ".jmd"]
    ∧ (FileFilter.mk "All Files" "*.*").GetExtensionList = [".*"] := by
  decide

/-- C7: for every positive scale, `UpdateSizing` in desktop mode sets every
metric, dialog size included, to its desktop base constant times the
scale; in touch mode the per-widget metrics are the touch base constants
times the scale while the dialog takes 90% of the viewport width and 85%
of its height, independently of either base table. -/
theorem updateSizing_metrics (d : DesktopBase) (t : TouchBase)
    (s dx dy : ℚ) (hs : 0 < s) :
    ((UpdateSizing d t false s dx dy).rowHeight = d.rowHeight * s
      ∧ (UpdateSizing d t false s dx dy).buttonHeight = d.buttonHeight * s
      ∧ (UpdateSizing d t false s dx dy).buttonWidth = d.buttonWidth * s
      ∧ (UpdateSizing d t false s dx dy).iconSize = d.iconSize * s
      ∧ (UpdateSizing d t false s dx dy).fontSize = d.fontSize * s
      ∧ (UpdateSizing d t false s dx dy).pathBarHeight = d.pathBarHeight * s
      ∧ (UpdateSizing d t false s dx dy).inputHeight = d.inputHeight * s
      ∧ (UpdateSizing d t false s dx dy).dialogWidth = d.dialogWidth * s
      ∧ (UpdateSizing d t false s dx dy).dialogHeight = d.dialogHeight * s)
    ∧ ((UpdateSizing d t true s dx dy).rowHeight = t.rowHeight * s
      ∧ (UpdateSizing d t true s dx dy).buttonHeight = t.buttonHeight * s
      ∧ (UpdateSizing d t true s dx dy).buttonWidth = t.buttonWidth * s
      ∧ (UpdateSizing d t true s dx dy).iconSize = t.iconSize * s
      ∧ (UpdateSizing d t true s dx dy).fontSize = t.fontSize * s
      ∧ (UpdateSizing d t true s dx dy).pathBarHeight = t.pathBarHeight * s
      ∧ (UpdateSizing d t true s dx dy).inputHeight = t.inputHeight * s)
    ∧ ((UpdateSizing d t true s dx dy).dialogWidth = dx * (9 / 10)
      ∧ (UpdateSizing d t true s dx dy).dialogHeight = dy * (17 / 20))
    ∧ (∀ d' t',
        (UpdateSizing d' t' true s dx dy).dialogWidth
            = (UpdateSizing d t true s dx dy).dialogWidth
        ∧ (UpdateSizing d' t' true s dx dy).dialogHeight
            = (UpdateSizing d t true s dx dy).dialogHeight) := by
  refine ⟨⟨rfl, rfl, rfl, rfl, rfl, rfl, rfl, rfl, rfl⟩,
          ⟨rfl, rfl, rfl, rfl, rfl, rfl, rfl⟩, ⟨rfl, rfl⟩, fun d' t' => ⟨rfl, rfl⟩⟩

/-- Sample desktop base table (values from `Config.hpp` where given). -/
def sampleDesktopBase : DesktopBase := ⟨24, 28, 90, 20, 14, 32, 28, 650, 450⟩

/-- Sample touch base table (values commented in `Config.hpp`). -/
def sampleTouchBase : TouchBase := ⟨52, 48, 120, 28, 16, 56, 48⟩

/-- C7 witness: `updateSizing_metrics` at scale 2 on the sample tables, in
particular the spec's test `rowHeight at scale 2.0 = 2.0 * base rowHeight`. -/
theorem updateSizing_metrics_witness :
    (0 : ℚ) < 2
    ∧ (UpdateSizing sampleDesktopBase sampleTouchBase false 2 1920 1080).rowHeight
        = sampleDesktopBase.rowHeight * 2
    ∧ (UpdateSizing sampleDesktopBase sampleTouchBase true 2 1920 1080).dialogWidth
        = 1920 * (9 / 10) :=
  ⟨by norm_num,
   (updateSizing_metrics sampleDesktopBase sampleTouchBase 2 1920 1080 (by norm_num)).1.1,
   (updateSizing_metrics sampleDesktopBase sampleTouchBase 2 1920 1080 (by norm_num)).2.2.1.1⟩

/-- C4: `IsValidSelection` holds in `Open` mode exactly when the selected
index is non-negative and refers to an in-bounds non-directory entry (so a
cleared selection of `-1` is invalid), in `Save` mode exactly when the
filename buffer is non-empty, and always in `SelectFolder` mode. -/
theorem isValidSelection_characterisation (st : BrowserState) :
    (st.config.mode = Mode.Open →
      (IsValidSelection st = true ↔
        0 ≤ st.selectedIndex ∧
          ∃ e, st.entries[st.selectedIndex.toNat]? = some e ∧ e.isDirectory = false))
    ∧ (st.config.mode = Mode.Open → st.selectedIndex = -1 → IsValidSelection st = false)
    ∧ (st.config.mode = Mode.Save → (IsValidSelection st = true ↔ st.filenameBuffer ≠ ""))
    ∧ (st.config.mode = Mode.SelectFolder → IsValidSelection st = true) := by
  refine ⟨?_, ?_, ?_, ?_⟩
  · intro h
    simp only [IsValidSelection, h, Bool.and_eq_true, decide_eq_true_eq, Bool.not_eq_true']
    constructor
    · rintro ⟨⟨h0, hlt⟩, hdir⟩
      have hn : st.selectedIndex.toNat < st.entries.length := by omega
      refine ⟨h0, st.entries[st.selectedIndex.toNat], ?_, ?_⟩
      · exact List.getElem?_eq_getElem hn
      · rw [List.getD_eq_getElem?_getD, List.getElem?_eq_getElem hn] at hdir
        exact hdir
    · rintro ⟨h0, e, he, hdir⟩
      have hn : st.selectedIndex.toNat < st.entries.length := by
        exact List.getElem?_eq_some.mp he |>.1
      refine ⟨⟨h0, by omega⟩, ?_⟩
      rw [List.getD_eq_getElem?_getD, he]
      have : st.entries[st.selectedIndex.toNat] = e := by
        have := List.getElem?_eq_getElem hn
        rw [this] at he
        exact Option.some.inj he
      simpa [this] using hdir
  · intro h hneg
    simp [IsValidSelection, h, hneg]
  · intro h
    simp [IsValidSelection, h]
  · intro h
    simp [IsValidSelection, h]

/-- An `Open`-mode state with no selection. -/
def openNoSelState : BrowserState :=
  { config := ⟨Mode.Open, [], true⟩
    currentPath := "/t"
    entries := [⟨"f", "/t/f", false, 1, 1⟩]
    selectedIndex := -1
    filenameBuffer := "x"
    sortOrder := SortOrder.NameAsc
    selectedFilterIndex := 0
    pendingScrollToIndex := -1 }

/-- A `Save`-mode state with an empty filename buffer. -/
def saveEmptyBufState : BrowserState :=
  { openNoSelState with config := ⟨Mode.Save, [], true⟩, filenameBuffer := "" }

/-- A `SelectFolder`-mode state. -/
def folderModeState : BrowserState :=
  { openNoSelState with config := ⟨Mode.SelectFolder, [], true⟩ }

/-- C4 witness: the three concrete spec probes, via
`isValidSelection_characterisation`. -/
theorem isValidSelection_characterisation_witness :
    IsValidSelection openNoSelState = false
    ∧ IsValidSelection saveEmptyBufState = false
    ∧ IsValidSelection folderModeState = true := by
  refine ⟨(isValidSelection_characterisation openNoSelState).2.1 rfl rfl, ?_,
          (isValidSelection_characterisation folderModeState).2.2.2 rfl⟩
  have h := (isValidSelection_characterisation saveEmptyBufState).2.2.1 rfl
  exact Bool.eq_false_iff.mpr (fun hh => (h.mp hh) rfl)

/-- C5: `NavigateTo` with a path that is not an existing directory is a
no-op on the whole session state and signals nothing; with a directory
path it replaces `currentPath`, clears the selection and refreshes the
listing. -/
theorem navigateTo_guard (fs : FileSystem) (st : BrowserState) (p : String) :
    (fs.isDirectory p = false → NavigateTo fs st p = st)
    ∧ (fs.isDirectory p = true →
        (NavigateTo fs st p).currentPath = p
        ∧ (NavigateTo fs st p).selectedIndex = -1
        ∧ NavigateTo fs st p
            = RefreshDirectory fs { st with currentPath := p, selectedIndex := -1 }) := by
  constructor
  · intro h
    simp [NavigateTo, h]
  · intro h
    refine ⟨?_, ?_, ?_⟩ <;> simp [NavigateTo, h, RefreshDirectory]

/-- A filesystem in which `/tmp` is the only directory. -/
def navFS : FileSystem :=
  { isDirectory := fun p => p == "/tmp"
    listChildren := fun _ => [⟨"a.txt", "/tmp/a.txt", false, 3, 1⟩] }

/-- The session state used to probe `NavigateTo`. -/
def navState : BrowserState :=
  { config := ⟨Mode.Open, [], true⟩
    currentPath := "/start"
    entries := []
    selectedIndex := -1
    filenameBuffer := ""
    sortOrder := SortOrder.NameAsc
    selectedFilterIndex := 0
    pendingScrollToIndex := -1 }

/-- C5 witness: `navigateTo("/nonexistent")` leaves the state untouched
and `navigateTo("/tmp")` moves there, via `navigateTo_guard`. -/
theorem navigateTo_guard_witness :
    NavigateTo navFS navState "/nonexistent" = navState
    ∧ (NavigateTo navFS navState "/tmp").currentPath = "/tmp" :=
  ⟨(navigateTo_guard navFS navState "/nonexistent").1 (by decide),
   ((navigateTo_guard navFS navState "/tmp").2 (by decide)).1⟩

/-- C3: in `Save` mode `BuildFullPath` combines `currentPath` with the
filename buffer, appending the active filter's first listed extension
exactly when that extension list is non-empty and the typed name's
lowercased extension is not literally one of the listed extensions. -/
theorem buildFullPath_save_extension (st : BrowserState)
    (hmode : st.config.mode = Mode.Save) :
    BuildFullPath st =
      CombinePath st.currentPath
        (if GetCurrentExtensions st.config.filters st.selectedFilterIndex ≠ []
            ∧ GetExtension st.filenameBuffer
                ∉ GetCurrentExtensions st.config.filters st.selectedFilterIndex
         then st.filenameBuffer
                ++ (GetCurrentExtensions st.config.filters st.selectedFilterIndex).headD ""
         else st.filenameBuffer) := by
  simp only [BuildFullPath, hmode]
  by_cases hf : st.config.filters = []
  · have he : GetCurrentExtensions st.config.filters st.selectedFilterIndex = [] := by
      simp [GetCurrentExtensions, hf]
    rw [he]
    simp [hf]
  · by_cases he : GetCurrentExtensions st.config.filters st.selectedFilterIndex = []
    · simp [hf, he]
    · by_cases hc : GetExtension st.filenameBuffer
          ∈ GetCurrentExtensions st.config.filters st.selectedFilterIndex
      · simp [hf, he, hc]
      · simp [hf, he, hc]

/-- A `Save`-mode session in `/tmp` with the filter `*.txt;*.md` active
and `report` typed. -/
def saveReportState : BrowserState :=
  { config := ⟨Mode.Save, [FileFilter.mk "Text" "*.txt;*.md"], false⟩
    currentPath := "/tmp"
    entries := []
    selectedIndex := -1
    filenameBuffer := "report"
    sortOrder := SortOrder.NameAsc
    selectedFilterIndex := 0
    pendingScrollToIndex := -1 }

/-- The same session with `report.txt` typed. -/
def saveReportTxtState : BrowserState :=
  { saveReportState with filenameBuffer := "report.txt" }

/-- C3 witness: `report` gains `.txt` (the first listed extension) and
`report.txt` is left unchanged, via `buildFullPath_save_extension`. -/
theorem buildFullPath_save_extension_witness :
    BuildFullPath saveReportState = "/tmp/report.txt"
    ∧ BuildFullPath saveReportTxtState = "/tmp/report.txt" := by
  constructor
  · rw [buildFullPath_save_extension saveReportState rfl]
    decide
  · rw [buildFullPath_save_extension saveReportTxtState rfl]
    decide

/-- The specification's matching predicate for the incremental search: the
entry name starts, case-insensitively, with the typed text. -/
def ciPrefixPred (text : String) (e : FileEntry) : Bool :=
  (toLowerString text).data.isPrefixOf (toLowerString e.name).data

/-- Spec-side search: the index of the first entry whose name starts,
case-insensitively, with the typed text. -/
def specFirstMatch (entries : List FileEntry) (text : String) : Option Nat :=
  entries.findIdx? (ciPrefixPred text)

/-- Boolean equality of characters is symmetric. -/
theorem charBeq_swap (a b : Char) : (a == b) = (b == a) := by
  by_cases h : a = b
  · rw [h]
  · rw [beq_eq_false_iff_ne.mpr h, beq_eq_false_iff_ne.mpr (Ne.symm h)]

/-- The character loop of the source search agrees with a lowercased
`isPrefixOf` test. -/
theorem ciStartsWith_eq_isPrefixOf (ps ns : List Char) :
    ciStartsWith ps ns = (ps.map toLowerChar).isPrefixOf (ns.map toLowerChar) := by
  induction ps generalizing ns with
  | nil => cases ns <;> simp [ciStartsWith, List.isPrefixOf]
  | cons p ps ih =>
    cases ns with
    | nil => simp [ciStartsWith, List.isPrefixOf]
    | cons n ns =>
      simp only [ciStartsWith, List.map_cons, List.isPrefixOf, ih]
      rw [charBeq_swap]

/-- The indexed search loop realises `List.findIdx?` with a start offset. -/
theorem findMatchAux_eq_findIdx? (pat : List Char) (l : List FileEntry) (i : Nat) :
    findMatchAux pat l i =
      (match l.findIdx? (fun e => ciStartsWith pat e.name.data) i with
       | some j => (j : Int)
       | none => -1) := by
  induction l generalizing i with
  | nil => simp [findMatchAux]
  | cons e rest ih =>
    simp only [findMatchAux, List.findIdx?_cons]
    by_cases h : ciStartsWith pat e.name.data
    · simp [h]
    · simp [h, ih]

/-- The source predicate and the spec predicate coincide. -/
theorem ciStartsWith_eq_ciPrefixPred (text : String) :
    (fun e => ciStartsWith text.data e.name.data) = ciPrefixPred text := by
  funext e
  exact ciStartsWith_eq_isPrefixOf text.data e.name.data

/-- C8: for a non-empty typed text, `FindMatchingEntryIndex` returns the
index of the first entry whose name starts case-insensitively with the
text (`-1` when none), and in `Open` mode a buffer edit moves the
selection to that index and requests a scroll-into-view when a match
exists, leaving the state untouched when no entry matches. -/
theorem incremental_search_behaviour (st : BrowserState) (entries : List FileEntry)
    (text : String) (i : Nat) (ht : text ≠ "") :
    (FindMatchingEntryIndex entries text =
      (match specFirstMatch entries text with
       | some j => (j : Int)
       | none => -1))
    ∧ (st.config.mode = Mode.Open → st.filenameBuffer ≠ "" →
        (specFirstMatch st.entries st.filenameBuffer = some i →
          OnFilenameEdited st
            = { st with selectedIndex := (i : Int), pendingScrollToIndex := (i : Int) })
        ∧ (specFirstMatch st.entries st.filenameBuffer = none →
            OnFilenameEdited st = st)) := by
  have hfind : ∀ (es : List FileEntry) (s : String), s ≠ "" →
      FindMatchingEntryIndex es s =
        (match specFirstMatch es s with
         | some j => (j : Int)
         | none => -1) := by
    intro es s hs
    rw [FindMatchingEntryIndex, if_neg hs, findMatchAux_eq_findIdx?,
        ciStartsWith_eq_ciPrefixPred]
    rfl
  refine ⟨hfind entries text ht, fun hmode hbuf => ⟨?_, ?_⟩⟩
  · intro hsome
    rw [OnFilenameEdited, if_pos ⟨hmode, hbuf⟩,
        hfind st.entries st.filenameBuffer hbuf, hsome]
    simp
  · intro hnone
    rw [OnFilenameEdited, if_pos ⟨hmode, hbuf⟩,
        hfind st.entries st.filenameBuffer hbuf, hnone]
    simp

/-- Entries probed by the incremental search: a directory `Banana` and a
file `apple.txt`. -/
def searchEntries : List FileEntry :=
  [⟨"Banana", "/x/Banana", true, 0, 0⟩, ⟨"apple.txt", "/x/apple.txt", false, 4, 2⟩]

/-- An `Open`-mode session whose buffer holds the uppercase text `AP`. -/
def searchState : BrowserState :=
  { config := ⟨Mode.Open, [], true⟩
    currentPath := "/x"
    entries := searchEntries
    selectedIndex := -1
    filenameBuffer := "AP"
    sortOrder := SortOrder.NameAsc
    selectedFilterIndex := 0
    pendingScrollToIndex := -1 }

/-- C8 witness: typing `AP` finds `apple.txt` (index 1, case-insensitive)
and moves the selection and scroll request there, via
`incremental_search_behaviour`. -/
theorem incremental_search_behaviour_witness :
    FindMatchingEntryIndex searchEntries "AP" = 1
    ∧ OnFilenameEdited searchState
        = { searchState with selectedIndex := 1, pendingScrollToIndex := 1 } := by
  have h := incremental_search_behaviour searchState searchEntries "AP" 1 (by decide)
  constructor
  · rw [h.1]
    decide
  · exact (h.2 rfl (by decide)).1 (by decide)

/-- The session invariant of C9: the selection is either cleared (`-1`) or
an in-bounds index of the current entry list. -/
def selIndexInv (st : BrowserState) : Prop :=
  st.selectedIndex = -1
    ∨ (0 ≤ st.selectedIndex ∧ st.selectedIndex < (st.entries.length : Int))

/-- C9: every listing refresh resets the selection to `-1`; `SelectEntry`
with an out-of-range index clears the selection and leaves the filename
buffer untouched; the incremental search only ever reports in-bounds
indices; and the invariant `selectedIndex = -1 or in-bounds` is preserved
by `SelectEntry`, by a buffer edit and by navigation. -/
theorem selectedIndex_invariant (fs : FileSystem) (st : BrowserState) (i : Int)
    (p s : String) :
    (RefreshDirectory fs st).selectedIndex = -1
    ∧ (¬(0 ≤ i ∧ i < (st.entries.length : Int)) →
        (SelectEntry st i).selectedIndex = -1
        ∧ (SelectEntry st i).filenameBuffer = st.filenameBuffer)
    ∧ selIndexInv (SelectEntry st i)
    ∧ (0 ≤ FindMatchingEntryIndex st.entries s →
        FindMatchingEntryIndex st.entries s < (st.entries.length : Int))
    ∧ (selIndexInv st → selIndexInv (OnFilenameEdited st))
    ∧ (selIndexInv st → selIndexInv (NavigateTo fs st p)) := by
  have hbound : ∀ (es : List FileEntry) (t : String),
      0 ≤ FindMatchingEntryIndex es t →
        FindMatchingEntryIndex es t < (es.length : Int) := by
    intro es t h0
    by_cases ht : t = ""
    · rw [FindMatchingEntryIndex, if_pos ht] at h0
      omega
    · rw [FindMatchingEntryIndex, if_neg ht, findMatchAux_eq_findIdx?] at h0 ⊢
      cases hidx : es.findIdx? (fun e => ciStartsWith t.data e.name.data) with
      | none =>
        rw [hidx] at h0
        exact absurd h0 (by decide)
      | some j =>
        have hj := (List.findIdx?_eq_some_iff_findIdx_eq.mp hidx).1
        show (j : Int) < (es.length : Int)
        omega
  refine ⟨rfl, ?_, ?_, hbound st.entries s, ?_, ?_⟩
  · intro h
    have hcond : i < 0 ∨ (st.entries.length : Int) ≤ i := by omega
    rw [SelectEntry, if_pos hcond]
    exact ⟨rfl, rfl⟩
  · rw [SelectEntry]
    split
    · exact Or.inl rfl
    · rename_i hcond
      push_neg at hcond
      dsimp only
      split
      · refine Or.inr ⟨?_, ?_⟩
        · show (0 : Int) ≤ i
          omega
        · show i < (st.entries.length : Int)
          omega
      · refine Or.inr ⟨?_, ?_⟩
        · show (0 : Int) ≤ i
          omega
        · show i < (st.entries.length : Int)
          omega
  · intro hinv
    rw [OnFilenameEdited]
    by_cases hcond : st.config.mode = Mode.Open ∧ st.filenameBuffer ≠ ""
    · rw [if_pos hcond]
      by_cases hm : 0 ≤ FindMatchingEntryIndex st.entries st.filenameBuffer
      · rw [if_pos hm]
        exact Or.inr ⟨hm, hbound st.entries st.filenameBuffer hm⟩
      · rw [if_neg hm]
        exact hinv
    · rw [if_neg hcond]
      exact hinv
  · intro hinv
    rw [NavigateTo]
    by_cases hdir : fs.isDirectory p = true
    · rw [if_pos hdir]
      exact Or.inl rfl
    · rw [if_neg hdir]
      exact hinv

/-- A state with two entries, used to probe the selection invariant. -/
def invState : BrowserState :=
  { config := ⟨Mode.Open, [], true⟩
    currentPath := "/inv"
    entries := [⟨"d", "/inv/d", true, 0, 0⟩, ⟨"f", "/inv/f", false, 7, 9⟩]
    selectedIndex := 0
    filenameBuffer := "f"
    sortOrder := SortOrder.NameAsc
    selectedFilterIndex := 0
    pendingScrollToIndex := -1 }

/-- A filesystem with no directories, used to probe the invariant under
navigation. -/
def invFS : FileSystem :=
  { isDirectory := fun _ => false
    listChildren := fun _ => [] }

/-- C9 witness: `selectedIndex_invariant` at the out-of-range index 5 and
at the concrete probe state. -/
theorem selectedIndex_invariant_witness :
    (SelectEntry invState 5).selectedIndex = -1
    ∧ (SelectEntry invState 5).filenameBuffer = invState.filenameBuffer
    ∧ selIndexInv (OnFilenameEdited invState) := by
  have h := selectedIndex_invariant invFS invState 5 "/p" "f"
  have hout := h.2.1 (by decide)
  exact ⟨hout.1, hout.2, h.2.2.2.2.1 (Or.inr ⟨by decide, by decide⟩)⟩

/-- A click handler call always stores exactly the clicked button's result. -/
theorem handleClick_result (s : ConfState) (b : Nat) :
    (HandleButtonClick s b).result = buttonResult b := by
  unfold HandleButtonClick
  dsimp only
  split <;> rfl

/-- A real button outcome hides the dialog. -/
theorem handleClick_isShown_of_ne (s : ConfState) (b : Nat)
    (h : buttonResult b ≠ DialogResult.None) :
    (HandleButtonClick s b).isShown = false := by
  unfold HandleButtonClick
  dsimp only
  rw [if_pos h]

/-- A `None` outcome leaves the shown flag untouched. -/
theorem handleClick_isShown_of_none (s : ConfState) (b : Nat)
    (h : buttonResult b = DialogResult.None) :
    (HandleButtonClick s b).isShown = s.isShown := by
  unfold HandleButtonClick
  dsimp only
  rw [if_neg (not_ne_iff.mpr h)]

/-- After a click handler call, a shown dialog holds no result. -/
theorem handleClick_shown_result_none (s : ConfState) (b : Nat) :
    (HandleButtonClick s b).isShown = true →
      (HandleButtonClick s b).result = DialogResult.None := by
  intro hsh
  rw [handleClick_result]
  by_cases h : buttonResult b = DialogResult.None
  · exact h
  · rw [handleClick_isShown_of_ne s b h] at hsh
    cases hsh

/-- The step function of the click pass keeps the shown-holds-no-result
property. -/
theorem clickStep_ok (inp : ConfFrameInput) (s : ConfState) (b : Nat)
    (h : s.isShown = true → s.result = DialogResult.None) :
    (if HasButton s.config.buttons b && inp.clicked b then HandleButtonClick s b else s).isShown
        = true →
      (if HasButton s.config.buttons b && inp.clicked b then HandleButtonClick s b else s).result
        = DialogResult.None := by
  split
  · exact handleClick_shown_result_none s b
  · exact h

/-- The whole click pass keeps the shown-holds-no-result property. -/
theorem processClicks_ok (inp : ConfFrameInput) (st : ConfState)
    (h : st.isShown = true → st.result = DialogResult.None) :
    (processClicks inp st).isShown = true →
      (processClicks inp st).result = DialogResult.None := by
  have : ∀ (l : List Nat) (s : ConfState),
      (s.isShown = true → s.result = DialogResult.None) →
      (l.foldl (fun s b =>
          if HasButton s.config.buttons b && inp.clicked b then HandleButtonClick s b else s)
        s).isShown = true →
      (l.foldl (fun s b =>
          if HasButton s.config.buttons b && inp.clicked b then HandleButtonClick s b else s)
        s).result = DialogResult.None := by
    intro l
    induction l with
    | nil => intro s hs; exact hs
    | cons b rest ih =>
      intro s hs
      simp only [List.foldl_cons]
      exact ih _ (clickStep_ok inp s b hs)
  exact this buttonRenderOrder st h

/-- The Escape handler keeps the shown-holds-no-result property. -/
theorem processEscape_ok (inp : ConfFrameInput) (st : ConfState)
    (h : st.isShown = true → st.result = DialogResult.None) :
    (processEscape inp st).isShown = true →
      (processEscape inp st).result = DialogResult.None := by
  unfold processEscape
  split
  · split
    · exact handleClick_shown_result_none st 2
    · split
      · exact handleClick_shown_result_none st 8
      · exact h
  · exact h

/-- The Enter handler keeps the shown-holds-no-result property. -/
theorem processEnter_ok (inp : ConfFrameInput) (st : ConfState)
    (h : st.isShown = true → st.result = DialogResult.None) :
    (processEnter inp st).isShown = true →
      (processEnter inp st).result = DialogResult.None := by
  unfold processEnter
  split
  · exact handleClick_shown_result_none st st.config.defaultButton
  · exact h

/-- A hidden dialog renders to itself and hands back no result. -/
theorem confRender_hidden (st : ConfState) (inp : ConfFrameInput)
    (h : st.isShown = false) : ConfRender st inp = (st, DialogResult.None) := by
  simp [ConfRender, h]

/-- A hidden dialog keeps rendering to no result, frame after frame. -/
theorem confRenderSeq_hidden (st : ConfState) (h : st.isShown = false) :
    ∀ l : List ConfFrameInput,
      ConfRenderSeq st l = l.map (fun _ => DialogResult.None) := by
  intro l
  induction l with
  | nil => rfl
  | cons i rest ih => simp [ConfRenderSeq, confRender_hidden st i h, ih]

/-- Rendering a shown, result-free dialog either stays shown and
result-free, or hides; and whenever it hands back a real result it has
hidden itself in the same call. -/
theorem confRender_ok (st : ConfState) (inp : ConfFrameInput)
    (hshown : st.isShown = true) (hres : st.result = DialogResult.None) :
    ((ConfRender st inp).1.isShown = true →
      (ConfRender st inp).1.result = DialogResult.None)
    ∧ ((ConfRender st inp).2 ≠ DialogResult.None →
      (ConfRender st inp).1.isShown = false) := by
  have hcond : ¬((!st.isShown) = true) := by rw [hshown]; decide
  unfold ConfRender
  rw [if_neg hcond]
  dsimp only
  by_cases hp : inp.popupOpen = true
  · rw [if_pos hp]
    have h1 : ConfState.isShown { st with shouldOpen := false } = true →
        ConfState.result { st with shouldOpen := false } = DialogResult.None :=
      fun _ => hres
    have h2 := processEnter_ok inp _ (processEscape_ok inp _ (processClicks_ok inp _ h1))
    dsimp only
    refine ⟨h2, ?_⟩
    intro hr
    cases hs : (processEnter inp (processEscape inp
        (processClicks inp { st with shouldOpen := false }))).isShown
    · rfl
    · exact absurd (h2 hs) hr
  · rw [if_neg hp]
    dsimp only
    constructor
    · intro h
      exact absurd h (by decide)
    · intro _
      rfl

/-- C6: `Show` starts a cycle with no result; a hidden dialog renders to
itself handing back `None`; and from any shown, result-free state a
render call that hands back a non-`None` result hides the dialog in that
same call, after which every further render call hands back `None` until
the next `Show`. -/
theorem confirmation_terminal_once (cfg : ConfirmationConfig) (st0 st : ConfState)
    (inp : ConfFrameInput) (inps : List ConfFrameInput) :
    ((ConfShow cfg st0).isShown = true ∧ (ConfShow cfg st0).result = DialogResult.None)
    ∧ (st.isShown = false → ConfRender st inp = (st, DialogResult.None))
    ∧ (st.isShown = true → st.result = DialogResult.None →
        ((ConfRender st inp).1.isShown = true →
            (ConfRender st inp).1.result = DialogResult.None)
        ∧ ((ConfRender st inp).2 ≠ DialogResult.None →
            (ConfRender st inp).1.isShown = false
            ∧ ConfRenderSeq (ConfRender st inp).1 inps
                = inps.map (fun _ => DialogResult.None))) := by
  refine ⟨⟨rfl, rfl⟩, fun h => confRender_hidden st inp h, fun hs hr => ?_⟩
  have h := confRender_ok st inp hs hr
  refine ⟨h.1, fun hne => ?_⟩
  have hh := h.2 hne
  exact ⟨hh, confRenderSeq_hidden _ hh inps⟩

/-- A shown Yes/No dialog whose default button is No, with no result yet. -/
def yesNoShownState : ConfState :=
  { config := ⟨12, 8⟩, isShown := true, shouldOpen := false,
    result := DialogResult.None }

/-- A frame in which only Enter is pressed and the popup stays open. -/
def enterOnlyFrame : ConfFrameInput :=
  { clicked := fun _ => false, escapePressed := false, enterPressed := true,
    popupOpen := true }

/-- C6 witness: the spec's Enter-on-Yes/No-default-No probe delivers a
result, hides the dialog in the same call, and one further frame hands
back `None`, via `confirmation_terminal_once`. -/
theorem confirmation_terminal_once_witness :
    (ConfRender yesNoShownState enterOnlyFrame).1.isShown = false
    ∧ ConfRenderSeq (ConfRender yesNoShownState enterOnlyFrame).1 [enterOnlyFrame]
        = [DialogResult.None] := by
  have h :=
    (confirmation_terminal_once ⟨12, 8⟩ yesNoShownState yesNoShownState
        enterOnlyFrame [enterOnlyFrame]).2.2 rfl rfl
  have hne : (ConfRender yesNoShownState enterOnlyFrame).2 ≠ DialogResult.None := by
    decide
  have hh := h.2 hne
  exact ⟨hh.1, by rw [hh.2]; rfl⟩

/-- C10: with the popup open and only Enter pressed, the render call fires
the configured default button with no membership test against the
enabled-buttons bitset: any of the seven single-button defaults delivers
its result and hides the dialog even when absent from the bitset, and
only a default of `None` (0) leaves the dialog open, handing back `None`. -/
theorem enter_activates_default_button (st : ConfState) (inp : ConfFrameInput)
    (hshown : st.isShown = true) (hopen : inp.popupOpen = true)
    (hnoclick : ∀ b, inp.clicked b = false) (hnoesc : inp.escapePressed = false)
    (henter : inp.enterPressed = true) :
    (ConfRender st inp).2 = buttonResult st.config.defaultButton
    ∧ (HasButton st.config.buttons st.config.defaultButton = false →
        (ConfRender st inp).2 = buttonResult st.config.defaultButton)
    ∧ (st.config.defaultButton ∈ ([1, 2, 4, 8, 16, 32, 64] : List Nat) →
        (ConfRender st inp).2 ≠ DialogResult.None
        ∧ (ConfRender st inp).1.isShown = false)
    ∧ (st.config.defaultButton = 0 →
        (ConfRender st inp).2 = DialogResult.None
        ∧ (ConfRender st inp).1.isShown = true) := by
  have hpc : processClicks inp { st with shouldOpen := false }
      = { st with shouldOpen := false } := by
    simp [processClicks, buttonRenderOrder, hnoclick]
  have hrender : ConfRender st inp
      = (HandleButtonClick { st with shouldOpen := false } st.config.defaultButton,
         (HandleButtonClick { st with shouldOpen := false } st.config.defaultButton).result) := by
    have hcond : ¬((!st.isShown) = true) := by rw [hshown]; decide
    unfold ConfRender
    rw [if_neg hcond]
    dsimp only
    rw [if_pos hopen]
    rw [hpc]
    simp [processEscape, hnoesc, processEnter, henter]
  have hsnd : (ConfRender st inp).2 = buttonResult st.config.defaultButton := by
    rw [hrender]
    exact handleClick_result _ _
  have hfst : (ConfRender st inp).1
      = HandleButtonClick { st with shouldOpen := false } st.config.defaultButton := by
    rw [hrender]
  refine ⟨hsnd, fun _ => hsnd, ?_, ?_⟩
  · intro hmem
    simp only [List.mem_cons, List.mem_singleton, List.not_mem_nil, or_false] at hmem
    have hne : buttonResult st.config.defaultButton ≠ DialogResult.None := by
      rcases hmem with h | h | h | h | h | h | h
      all_goals (rw [h]; decide)
    rw [hsnd, hfst]
    exact ⟨hne, handleClick_isShown_of_ne _ _ hne⟩
  · intro h0
    rw [hsnd, hfst, h0]
    refine ⟨rfl, ?_⟩
    rw [handleClick_isShown_of_none { st with shouldOpen := false } 0 (by decide)]
    exact hshown

/-- A shown Yes/No dialog whose configured default is the Ok button, which
is absent from the enabled bitset. -/
def yesNoDefaultOkState : ConfState :=
  { config := ⟨12, 1⟩, isShown := true, shouldOpen := false,
    result := DialogResult.None }

/-- C10 witness: Enter on a Yes/No dialog whose default is the absent Ok
button still delivers `Ok` and hides the dialog, via
`enter_activates_default_button`. -/
theorem enter_activates_default_button_witness :
    HasButton (12 : Nat) 1 = false
    ∧ (ConfRender yesNoDefaultOkState enterOnlyFrame).2 = DialogResult.Ok
    ∧ (ConfRender yesNoDefaultOkState enterOnlyFrame).1.isShown = false := by
  have h := enter_activates_default_button yesNoDefaultOkState enterOnlyFrame
    rfl rfl (fun _ => rfl) rfl rfl
  refine ⟨by decide, ?_, (h.2.2.1 (by decide)).2⟩
  rw [h.1]
  decide

end ImFileBrowser
